import Mathlib

/-!
# Verification of the XMP-editor binary metadata codec

Shallow embedding of the three format modules (`src/lib/jpeg.ts`,
`src/lib/png.ts`, `src/lib/webp.ts`) of the XMP-editor repository, and
proofs settling the frozen claims about them.

Modelling conventions:
* a JS `ArrayBuffer`/`Uint8Array` is a `List Nat` of byte values (< 256 for
  real buffers; theorems add that hypothesis where the value range matters);
* `data[i]` on an in-bounds index is `List.getD data i 0`; every modelled
  read is guarded exactly as in the source, so the default never shows;
* `TextEncoder().encode` / `TextDecoder().decode` are the identity on the
  byte-list representation: an XML string argument is passed as its UTF-8
  bytes;
* JS `while` loops that advance a strictly increasing offset are modelled
  by fuel recursion with fuel `data.length + 1`, which dominates the
  number of iterations because every iteration advances by at least one;
* `throw` is `Except.error`, a returned buffer is `Except.ok`.
-/

/-- Byte values of an ASCII string. -/
def ascii (s : String) : List Nat := s.toList.map Char.toNat

/-- `DataView.getUint16(o)` (big-endian). -/
def readU16BE (data : List Nat) (o : Nat) : Nat :=
  256 * data.getD o 0 + data.getD (o + 1) 0

/-- `DataView.getUint32(o)` (big-endian). -/
def readU32BE (data : List Nat) (o : Nat) : Nat :=
  16777216 * data.getD o 0 + 65536 * data.getD (o + 1) 0 +
    256 * data.getD (o + 2) 0 + data.getD (o + 3) 0

/-- `DataView.getUint32(o, true)` (little-endian). -/
def readU32LE (data : List Nat) (o : Nat) : Nat :=
  data.getD o 0 + 256 * data.getD (o + 1) 0 +
    65536 * data.getD (o + 2) 0 + 16777216 * data.getD (o + 3) 0

/-- Big-endian 16-bit byte pair of `v % 65536` (`DataView.setUint16`). -/
def be16 (v : Nat) : List Nat := [v / 256 % 256, v % 256]

/-- Big-endian 32-bit bytes of `v % 2^32` (`DataView.setUint32`). -/
def be32 (v : Nat) : List Nat :=
  [v / 16777216 % 256, v / 65536 % 256, v / 256 % 256, v % 256]

/-- Little-endian 32-bit bytes of `v % 2^32` (`DataView.setUint32(_,_,true)`). -/
def le32 (v : Nat) : List Nat :=
  [v % 256, v / 256 % 256, v / 65536 % 256, v / 16777216 % 256]

/-- `DataView.setUint32(o, v, true)` applied in place: overwrite the four
bytes at positions `o..o+3` with the little-endian encoding of `v % 2^32`. -/
def writeU32LE (data : List Nat) (o : Nat) (v : Nat) : List Nat :=
  ((((data.set o (v % 256)).set (o + 1) (v / 256 % 256)).set
      (o + 2) (v / 65536 % 256)).set (o + 3) (v / 16777216 % 256))

/-- The `matchesBytes` helper shared by `jpeg.ts` and `png.ts`: pattern fits
inside the buffer at `offset` and every byte agrees. -/
def matchesBytes (data : List Nat) (offset : Nat) (pattern : List Nat) : Bool :=
  decide (offset + pattern.length ≤ data.length) &&
    ((data.drop offset).take pattern.length == pattern)

namespace Jpeg

/-- `XMP_NAMESPACE` of `jpeg.ts`: the XMP namespace URI plus a NUL, 29 bytes. -/
def xmpNs : List Nat := ascii "http://ns.adobe.com/xap/1.0/" ++ [0]

/-- The scanning loop of `readXmp` in `jpeg.ts` (lines 19–51), by fuel. -/
def readXmpGo (data : List Nat) : Nat → Nat → Option (List Nat)
  | 0, _ => none
  | fuel + 1, offset =>
    if offset < data.length - 4 then
      if data.getD offset 0 ≠ 0xff then none
      else
        let markerType := data.getD (offset + 1) 0
        if markerType = 0xda then none
        else if markerType = 0xff then readXmpGo data fuel (offset + 1)
        else if markerType = 0xd0 ∨ markerType = 0xd9 then
          readXmpGo data fuel (offset + 2)
        else
          let segmentLength := readU16BE data (offset + 2)
          let segmentDataStart := offset + 4
          if markerType = 0xe1 ∧ segmentLength ≥ xmpNs.length + 2 ∧
              matchesBytes data segmentDataStart xmpNs then
            some ((data.drop (segmentDataStart + xmpNs.length)).take
              (segmentLength - 2 - xmpNs.length))
          else readXmpGo data fuel (offset + 2 + segmentLength)
    else none

/-- `readXmp` of `jpeg.ts`: XMP payload bytes of the first matching APP1
segment, or `none`. -/
def readXmp (data : List Nat) : Option (List Nat) :=
  if data.length < 2 ∨ readU16BE data 0 ≠ 0xffd8 then none
  else readXmpGo data (data.length + 1) 2

/-- The scanning loop of `findXmpSegmentRange` in `jpeg.ts` (lines 113–137). -/
def findXmpSegmentRangeGo (data : List Nat) : Nat → Nat → Option (Nat × Nat)
  | 0, _ => none
  | fuel + 1, offset =>
    if offset < data.length - 4 then
      if data.getD offset 0 ≠ 0xff then none
      else
        let markerType := data.getD (offset + 1) 0
        if markerType = 0xda then none
        else if markerType = 0xff then findXmpSegmentRangeGo data fuel (offset + 1)
        else if markerType = 0xd0 ∨ markerType = 0xd9 then
          findXmpSegmentRangeGo data fuel (offset + 2)
        else
          let segmentLength := readU16BE data (offset + 2)
          if markerType = 0xe1 ∧ segmentLength ≥ xmpNs.length + 2 ∧
              matchesBytes data (offset + 4) xmpNs then
            some (offset, offset + 2 + segmentLength)
          else findXmpSegmentRangeGo data fuel (offset + 2 + segmentLength)
    else none

/-- `findXmpSegmentRange` of `jpeg.ts`: byte range `[start, end)` of the XMP
APP1 segment, or `none`. -/
def findXmpSegmentRange (data : List Nat) : Option (Nat × Nat) :=
  if data.length < 2 ∨ readU16BE data 0 ≠ 0xffd8 then none
  else findXmpSegmentRangeGo data (data.length + 1) 2

/-- The fresh APP1 segment built by `writeXmp` in `jpeg.ts` (lines 70–76):
marker bytes, big-endian length (data length + 2), namespace + NUL, payload. -/
def newSegment (xml : List Nat) : List Nat :=
  [0xff, 0xe1] ++ be16 (xmpNs.length + xml.length + 2) ++ xmpNs ++ xml

/-- `writeXmp` of `jpeg.ts` (lines 60–100).  Note: unlike the PNG and WebP
modules it performs no signature check of its own; `findXmpSegmentRange`
returns `none` on a buffer without the SOI marker and the insert branch
runs. -/
def writeXmp (data xml : List Nat) : Except String (List Nat) :=
  if xmpNs.length + xml.length + 2 > 65535 then
    .error "XMP data is too large for a single JPEG APP1 segment"
  else
    match findXmpSegmentRange data with
    | some (s, e) => .ok (data.take s ++ newSegment xml ++ data.drop e)
    | none => .ok (data.take 2 ++ newSegment xml ++ data.drop 2)

/-- Spec-comparison scanner for claim C4.  Identical to `readXmpGo` except
that the standalone-marker test follows the specification's words: the whole
range `0xD0`–`0xD9` is skipped by exactly 2 bytes (the source tests only
`0xd0` and `0xd9`). -/
def readXmpRangeRuleGo (data : List Nat) : Nat → Nat → Option (List Nat)
  | 0, _ => none
  | fuel + 1, offset =>
    if offset < data.length - 4 then
      if data.getD offset 0 ≠ 0xff then none
      else
        let markerType := data.getD (offset + 1) 0
        if markerType = 0xda then none
        else if markerType = 0xff then readXmpRangeRuleGo data fuel (offset + 1)
        else if 0xd0 ≤ markerType ∧ markerType ≤ 0xd9 then
          readXmpRangeRuleGo data fuel (offset + 2)
        else
          let segmentLength := readU16BE data (offset + 2)
          let segmentDataStart := offset + 4
          if markerType = 0xe1 ∧ segmentLength ≥ xmpNs.length + 2 ∧
              matchesBytes data segmentDataStart xmpNs then
            some ((data.drop (segmentDataStart + xmpNs.length)).take
              (segmentLength - 2 - xmpNs.length))
          else readXmpRangeRuleGo data fuel (offset + 2 + segmentLength)
    else none

/-- Spec-comparison variant of `readXmp` using the `0xD0`–`0xD9` range rule
of the specification (claim C4). -/
def readXmpRangeRule (data : List Nat) : Option (List Nat) :=
  if data.length < 2 ∨ readU16BE data 0 ≠ 0xffd8 then none
  else readXmpRangeRuleGo data (data.length + 1) 2

end Jpeg

namespace Png

/-- `PNG_SIGNATURE` of `png.ts`. -/
def signature : List Nat := [137, 80, 78, 71, 13, 10, 26, 10]

/-- `XMP_KEYWORD` of `png.ts`, as Latin-1 bytes. -/
def xmpKeyword : List Nat := ascii "XML:com.adobe.xmp"

def itxtType : List Nat := ascii "iTXt"

def idatType : List Nat := ascii "IDAT"

def iendType : List Nat := ascii "IEND"

/-- Result of `readChunkHeader` in `png.ts`. -/
structure ChunkHeader where
  type : List Nat
  dataOffset : Nat
  dataLength : Nat
  deriving DecidableEq

/-- `readChunkHeader` of `png.ts` (lines 101–111). -/
def readChunkHeader (data : List Nat) (offset : Nat) : Option ChunkHeader :=
  if offset + 8 > data.length then none
  else some ⟨(data.drop (offset + 4)).take 4, offset + 8, readU32BE data offset⟩

/-- JS `Uint8Array.indexOf(0, pos)`: first index `≥ pos` holding 0. -/
def indexOfZeroFrom (l : List Nat) (pos : Nat) : Option Nat :=
  ((l.drop pos).findIdx? (fun b => b == 0)).map (pos + ·)

/-- `parseITXtForXmp` of `png.ts` (lines 114–144): keyword must be
`XML:com.adobe.xmp` (Latin-1 decoding of the bytes before the first NUL
equals that string iff the bytes are its codes); after skipping compression
flag/method and the two NUL-terminated tags, the remainder is the XMP. -/
def parseITXtForXmp (data : List Nat) (dataOffset dataLength : Nat) :
    Option (List Nat) :=
  let chunkData := (data.drop dataOffset).take dataLength
  match indexOfZeroFrom chunkData 0 with
  | none => none
  | some nullIdx =>
    if chunkData.take nullIdx ≠ xmpKeyword then none
    else
      match indexOfZeroFrom chunkData (nullIdx + 3) with
      | none => none
      | some langEnd =>
        match indexOfZeroFrom chunkData (langEnd + 1) with
        | none => none
        | some transEnd => some (chunkData.drop (transEnd + 1))

/-- The scanning loop of `readXmp` in `png.ts` (lines 15–28), by fuel. -/
def readXmpGo (data : List Nat) : Nat → Nat → Option (List Nat)
  | 0, _ => none
  | fuel + 1, offset =>
    if offset < data.length - 8 then
      match readChunkHeader data offset with
      | none => none
      | some ch =>
        let next := ch.dataOffset + ch.dataLength + 4
        let cont := if ch.type = iendType then none else readXmpGo data fuel next
        if ch.type = itxtType then
          match parseITXtForXmp data ch.dataOffset ch.dataLength with
          | some xmp => some xmp
          | none => cont
        else cont
    else none

/-- `readXmp` of `png.ts`. -/
def readXmp (data : List Nat) : Option (List Nat) :=
  if matchesBytes data 0 signature then readXmpGo data (data.length + 1) 8
  else none

/-- State accumulated by the scanning loop of `writeXmp` in `png.ts`
(lines 48–71): byte range of the first XMP-bearing `iTXt` chunk, offset of
the first `IDAT` chunk, and the final value of `offset` when the loop
stopped. -/
structure ScanResult where
  existing : Option (Nat × Nat)
  firstIdat : Option Nat
  stop : Nat
  deriving DecidableEq

/-- The scanning loop of `writeXmp` in `png.ts` (lines 53–71), by fuel. -/
def scanGo (data : List Nat) :
    Nat → Nat → Option (Nat × Nat) → Option Nat → ScanResult
  | 0, offset, ex, fi => ⟨ex, fi, offset⟩
  | fuel + 1, offset, ex, fi =>
    if offset < data.length - 8 then
      match readChunkHeader data offset with
      | none => ⟨ex, fi, offset⟩
      | some ch =>
        let next := ch.dataOffset + ch.dataLength + 4
        let ex' := if ex = none ∧ ch.type = itxtType ∧
            (parseITXtForXmp data ch.dataOffset ch.dataLength).isSome then
          some (offset, next) else ex
        let fi' := if fi = none ∧ ch.type = idatType then some offset else fi
        if ch.type = iendType then ⟨ex', fi', next⟩
        else scanGo data fuel next ex' fi'
    else ⟨ex, fi, offset⟩

/-- The whole write-path scan of `png.ts`. -/
def scan (data : List Nat) : ScanResult := scanGo data (data.length + 1) 8 none none

/-- `buildITXtData` of `png.ts` (lines 147–168): keyword, NUL, compression
flag 0, compression method 0, empty NUL-terminated language tag and
translated keyword, then the XMP bytes. -/
def buildITXtData (xml : List Nat) : List Nat :=
  xmpKeyword ++ [0, 0, 0, 0, 0] ++ xml

/-- `makeCrcTable`'s per-iteration step (`png.ts` lines 198–203). -/
def crcStep (c : Nat) : Nat :=
  if c % 2 = 1 then 0xedb88320 ^^^ (c / 2) else c / 2

/-- Eight iterations of `crcStep`: one table entry's worth of bit steps. -/
def crcStep8 (c : Nat) : Nat := crcStep^[8] c

/-- `makeCrcTable` of `png.ts` (lines 194–208). -/
def crcTable : List Nat := (List.range 256).map crcStep8

/-- One iteration of the `crc32` loop in `png.ts` (line 213). -/
def crcUpdate (c b : Nat) : Nat :=
  crcTable.getD ((c ^^^ b) &&& 255) 0 ^^^ (c / 256)

/-- `crc32` of `png.ts` (lines 210–216): table-driven CRC-32. -/
def crc32 (data : List Nat) : Nat :=
  data.foldl crcUpdate 0xffffffff ^^^ 0xffffffff

/-- Specification-shaped CRC-32 byte update: XOR the byte into the register,
then run eight reflected-polynomial bit steps. -/
def crcUpdateBitwise (c b : Nat) : Nat := crcStep8 (c ^^^ b)

/-- Specification-shaped CRC-32: reflected polynomial `0xEDB88320`, initial
value `0xFFFFFFFF`, final XOR `0xFFFFFFFF`, bit-by-bit. -/
def crc32Bitwise (data : List Nat) : Nat :=
  data.foldl crcUpdateBitwise 0xffffffff ^^^ 0xffffffff

/-- `buildPngChunk` of `png.ts` (lines 171–189): big-endian length, 4-byte
type, data, big-endian CRC-32 over type + data. -/
def buildPngChunk (type chunkData : List Nat) : List Nat :=
  be32 chunkData.length ++ type ++ chunkData ++ be32 (crc32 (type ++ chunkData))

/-- `writeXmp` of `png.ts` (lines 37–93). -/
def writeXmp (data xml : List Nat) : Except String (List Nat) :=
  if ¬ matchesBytes data 0 signature then .error "Not a valid PNG file"
  else
    let newChunk := buildPngChunk itxtType (buildITXtData xml)
    let s := scan data
    match s.existing with
    | some (a, b) => .ok (data.take a ++ newChunk ++ data.drop b)
    | none =>
      let insertAt := s.firstIdat.getD s.stop
      .ok (data.take insertAt ++ newChunk ++ data.drop insertAt)

end Png

def readU16LE (data : List Nat) (o : Nat) : Nat :=
  data.getD o 0 + 256 * data.getD (o + 1) 0

namespace Webp

def riffMagic : List Nat := ascii "RIFF"

def webpMagic : List Nat := ascii "WEBP"

def xmpFourcc : List Nat := ascii "XMP "

def vp8xFourcc : List Nat := ascii "VP8X"

def vp8Fourcc : List Nat := ascii "VP8 "

def vp8lFourcc : List Nat := ascii "VP8L"

/-- `matchesFourCC` of `webp.ts` (lines 212–215). -/
def matchesFourCC (a b : List Nat) : Bool :=
  decide (4 ≤ a.length) && decide (4 ≤ b.length) && (a.take 4 == b.take 4)

/-- `isWebP` of `webp.ts` (lines 204–210). -/
def isWebP (data : List Nat) : Bool :=
  decide (12 ≤ data.length) &&
    matchesFourCC (data.take 4) riffMagic &&
    matchesFourCC ((data.drop 8).take 4) webpMagic

/-- The scanning loop of `readXmp` in `webp.ts` (lines 16–29), by fuel. -/
def readXmpGo (data : List Nat) : Nat → Nat → Option (List Nat)
  | 0, _ => none
  | fuel + 1, offset =>
    if offset < data.length - 8 then
      let fourcc := (data.drop offset).take 4
      let chunkSize := readU32LE data (offset + 4)
      if matchesFourCC fourcc xmpFourcc then
        some ((data.drop (offset + 8)).take chunkSize)
      else readXmpGo data fuel (offset + 8 + chunkSize + chunkSize % 2)
    else none

/-- `readXmp` of `webp.ts`. -/
def readXmp (data : List Nat) : Option (List Nat) :=
  if isWebP data then readXmpGo data (data.length + 1) 12 else none

/-- Count of XMP-bearing chunks met by the RIFF chunk walk (the walk of
`readXmp`, continued past each match).  Used to state uniqueness claims. -/
def countXmpGo (data : List Nat) : Nat → Nat → Nat
  | 0, _ => 0
  | fuel + 1, offset =>
    if offset < data.length - 8 then
      let fourcc := (data.drop offset).take 4
      let chunkSize := readU32LE data (offset + 4)
      let rest := countXmpGo data fuel (offset + 8 + chunkSize + chunkSize % 2)
      if matchesFourCC fourcc xmpFourcc then rest + 1 else rest
    else 0

/-- Number of XMP chunks the RIFF walk meets in a WebP buffer. -/
def countXmpChunks (data : List Nat) : Nat :=
  countXmpGo data (data.length + 1) 12

/-- State accumulated by the scanning loop of `writeXmp` in `webp.ts`
(lines 58–74).  Note that the source overwrites `existingStart`/`existingEnd`
on *every* XMP match (there is no `existingStart === null` guard like in the
PNG module), so the recorded range is the **last** match's. -/
structure WScan where
  existing : Option (Nat × Nat)
  vp8x : Option Nat
  deriving DecidableEq

/-- The scanning loop of `writeXmp` in `webp.ts` (lines 58–74), by fuel. -/
def scanGo (data : List Nat) :
    Nat → Nat → Option (Nat × Nat) → Option Nat → WScan
  | 0, _, ex, vp => ⟨ex, vp⟩
  | fuel + 1, offset, ex, vp =>
    if offset < data.length - 8 then
      let fourcc := (data.drop offset).take 4
      let chunkSize := readU32LE data (offset + 4)
      let next := offset + 8 + chunkSize + chunkSize % 2
      let ex' := if matchesFourCC fourcc xmpFourcc then some (offset, next) else ex
      let vp' := if matchesFourCC fourcc vp8xFourcc then some offset else vp
      scanGo data fuel next ex' vp'
    else ⟨ex, vp⟩

/-- The whole write-path scan of `webp.ts`. -/
def scan (data : List Nat) : WScan := scanGo data (data.length + 1) 12 none none

/-- `buildRiffChunk` of `webp.ts` (lines 190–202): FourCC, little-endian
size, data, one zero pad byte when the data length is odd. -/
def buildRiffChunk (fourcc chunkData : List Nat) : List Nat :=
  fourcc ++ le32 chunkData.length ++ chunkData ++
    (if chunkData.length % 2 = 1 then [0] else [])

/-- `insertVP8XAndXmp` of `webp.ts` (lines 109–169).  `Math.max(width - 1, 0)`
coincides with truncated subtraction on `Nat`. -/
def insertVP8XAndXmp (data xmpChunk : List Nat) : List Nat :=
  let firstFourcc := (data.drop 12).take 4
  let wh : Nat × Nat :=
    if firstFourcc = vp8Fourcc then
      if data.length > 30 then
        (readU16LE data 26 &&& 0x3fff, readU16LE data 28 &&& 0x3fff)
      else (0, 0)
    else if firstFourcc = vp8lFourcc then
      if data.length > 25 then
        let bits := readU32LE data 21
        ((bits &&& 0x3fff) + 1, ((bits >>> 14) &&& 0x3fff) + 1)
      else (0, 0)
    else (0, 0)
  let w := wh.1 - 1
  let h := wh.2 - 1
  let vp8xData : List Nat :=
    [0x04, 0, 0, 0, w % 256, w / 256 % 256, w / 65536 % 256,
      h % 256, h / 256 % 256, h / 65536 % 256]
  let vp8xChunk := buildRiffChunk vp8xFourcc vp8xData
  data.take 12 ++ vp8xChunk ++ data.drop 12 ++ xmpChunk

/-- The scanning loop of `setVP8XFlag` in `webp.ts` (lines 176–187), by
fuel: offset of the first `VP8X` chunk met by the walk. -/
def findVP8XGo (data : List Nat) : Nat → Nat → Option Nat
  | 0, _ => none
  | fuel + 1, offset =>
    if offset < data.length - 8 then
      let fourcc := (data.drop offset).take 4
      if matchesFourCC fourcc vp8xFourcc then some offset
      else
        let chunkSize := readU32LE data (offset + 4)
        findVP8XGo data fuel (offset + 8 + chunkSize + chunkSize % 2)
    else none

/-- Offset of the first `VP8X` chunk found by `setVP8XFlag`'s walk. -/
def findVP8X (data : List Nat) : Option Nat :=
  findVP8XGo data (data.length + 1) 12

/-- `setVP8XFlag` of `webp.ts` (lines 172–188), as a pure transform: set
bit 2 of the flags byte of the first `VP8X` chunk, if any. -/
def setVP8XFlag (data : List Nat) : List Nat :=
  match findVP8X data with
  | some o => data.set (o + 8) (data.getD (o + 8) 0 ||| 0x04)
  | none => data

/-- `writeXmp` of `webp.ts` (lines 39–107). -/
def writeXmp (data xml : List Nat) : Except String (List Nat) :=
  if ¬ isWebP data then .error "Not a valid WebP file"
  else
    let newChunk := buildRiffChunk xmpFourcc xml
    let s := scan data
    let mid :=
      match s.existing with
      | some (a, b) => data.take a ++ newChunk ++ data.drop b
      | none =>
        match s.vp8x with
        | none => insertVP8XAndXmp data newChunk
        | some _ => data ++ newChunk
    let sized := writeU32LE mid 4 ((mid.length - 8) % 4294967296)
    .ok (setVP8XFlag sized)

end Webp

/-- 24-bit little-endian field read (used to state the VP8X canvas fields). -/
def readU24LE (data : List Nat) (o : Nat) : Nat :=
  data.getD o 0 + 256 * data.getD (o + 1) 0 + 65536 * data.getD (o + 2) 0

/-- A two-byte buffer without the JPEG SOI signature. -/
def c1jpegBuf : List Nat := [0, 0]

/-- A WebP buffer (valid RIFF/WEBP magic) already holding two XMP chunks,
with payloads `AA` and `BB`. -/
def c2buf : List Nat :=
  Webp.riffMagic ++ le32 24 ++ Webp.webpMagic ++
    Webp.buildRiffChunk Webp.xmpFourcc [65, 65] ++
    Webp.buildRiffChunk Webp.xmpFourcc [66, 66]

/-- A valid PNG buffer holding only the signature and an IEND chunk (no
IDAT, no iTXt). -/
def c3buf : List Nat :=
  Png.signature ++ [0, 0, 0, 0] ++ Png.iendType ++ [174, 66, 96, 130]

/-- A JPEG buffer whose marker stream is SOI, a bare RST1 marker
(`0xFF 0xD1`), then a well-formed XMP APP1 segment with payload `hi`. -/
def c4buf : List Nat := [0xff, 0xd8, 0xff, 0xd1] ++ Jpeg.newSegment [104, 105]

/-- A WebP buffer with two XMP chunks, payloads `XY` and `Z[`. -/
def c5buf : List Nat :=
  Webp.riffMagic ++ le32 24 ++ Webp.webpMagic ++
    Webp.buildRiffChunk Webp.xmpFourcc [88, 89] ++
    Webp.buildRiffChunk Webp.xmpFourcc [90, 91]

/-! ## Helper lemmas on byte lists -/

theorem getD_set_ne {l : List Nat} {i j : Nat} (h : i ≠ j) (v : Nat) :
    (l.set i v).getD j 0 = l.getD j 0 := by
  simp [List.getD_eq_getElem?_getD, List.getElem?_set_ne h]

theorem getD_set_self {l : List Nat} {i : Nat} (h : i < l.length) (v : Nat) :
    (l.set i v).getD i 0 = v := by
  simp [List.getD_eq_getElem?_getD, List.getElem?_set_self h]

/-- A four-byte slice, elementwise. -/
theorem slice4_eq (l : List Nat) (o : Nat) (h : o + 4 ≤ l.length) :
    (l.drop o).take 4 =
      [l.getD o 0, l.getD (o + 1) 0, l.getD (o + 2) 0, l.getD (o + 3) 0] := by
  have h0 : o < l.length := by omega
  have h1 : o + 1 < l.length := by omega
  have h2 : o + 2 < l.length := by omega
  have h3 : o + 3 < l.length := by omega
  apply List.ext_getElem
  · simp; omega
  · intro i hi1 hi2
    have hi : i < 4 := by simpa using hi2
    simp only [List.getElem_take, List.getElem_drop]
    interval_cases i <;> simp [List.getD_eq_getElem, h0, h1, h2, h3]

theorem length_writeU32LE (data : List Nat) (o v : Nat) :
    (writeU32LE data o v).length = data.length := by
  simp [writeU32LE]

theorem getD_writeU32LE_outside (data : List Nat) (o v p : Nat)
    (h : p < o ∨ o + 3 < p) :
    (writeU32LE data o v).getD p 0 = data.getD p 0 := by
  unfold writeU32LE
  rw [getD_set_ne (by omega), getD_set_ne (by omega), getD_set_ne (by omega),
    getD_set_ne (by omega)]

theorem getD_append_left' {l l' : List Nat} {n : Nat} (h : n < l.length) :
    (l ++ l').getD n 0 = l.getD n 0 :=
  List.getD_append l l' 0 n h

theorem getD_append_right' {l l' : List Nat} {n : Nat} (h : l.length ≤ n) :
    (l ++ l').getD n 0 = l'.getD (n - l.length) 0 :=
  List.getD_append_right l l' 0 n h

/-! ## Claim theorems -/

/-- **C1, counterexample.**  The claim says every format's `writeXmp` throws
whenever the buffer lacks the magic signature.  The JPEG module contradicts
it: on the two-byte buffer `[0, 0]`, which does not carry the SOI marker
`0xFFD8`, `writeXmp` returns a buffer instead of throwing. -/
theorem c1_counterexample :
    readU16BE c1jpegBuf 0 ≠ 0xffd8 ∧
    (Jpeg.writeXmp c1jpegBuf (ascii "x")).isOk = true := by
  constructor
  · decide
  · rfl

/-- **C2, evaluation at the failing input.**  On a WebP buffer already
holding two XMP chunks (payloads `AA` then `BB`), the write-path scan
records the **last** match (range `[22, 32)`), `writeXmp` replaces that one,
and the returned buffer still holds two XMP-bearing chunks — `readXmp`
still returns the untouched first payload `AA`, not the newly written
`CC`. -/
theorem c2_webp_duplicate_eval :
    (Webp.scan c2buf).existing = some (22, 32) ∧
    (Webp.writeXmp c2buf [67, 67]).map Webp.countXmpChunks = .ok 2 ∧
    (Webp.writeXmp c2buf [67, 67]).map Webp.readXmp = .ok (some [65, 65]) := by
  refine ⟨by decide, by rfl, by rfl⟩

/-- **C3, counterexample.**  On a valid PNG with no IDAT chunk, the scan
processes the IEND chunk at bytes `[8, 20)` and stops with `offset = 20`,
so the new iTXt chunk is appended **after** IEND — the returned buffer is
the original followed by the new chunk — contradicting the claim that the
inserted chunk precedes the IEND chunk. -/
theorem c3_counterexample :
    (Png.readChunkHeader c3buf 8).map Png.ChunkHeader.type = some Png.iendType ∧
    Png.writeXmp c3buf [104] =
      .ok (c3buf ++ Png.buildPngChunk Png.itxtType (Png.buildITXtData [104])) ∧
    (Png.readChunkHeader
      (c3buf ++ Png.buildPngChunk Png.itxtType (Png.buildITXtData [104]))
      8).map Png.ChunkHeader.type = some Png.iendType ∧
    (Png.readChunkHeader
      (c3buf ++ Png.buildPngChunk Png.itxtType (Png.buildITXtData [104]))
      20).map Png.ChunkHeader.type = some Png.itxtType := by
  refine ⟨by rfl, by rfl, by rfl, by rfl⟩

/-- **C4, evaluation at the failing input.**  The source's standalone-marker
test is `markerType === 0xd0 || markerType === 0xd9`, not the `0xD0`–`0xD9`
range the claim (and the source's own comment, `RST, SOI, EOI`) describes.
On a JPEG whose stream is SOI, a bare RST1 marker `0xFF 0xD1`, then an XMP
APP1 segment, both scanners of the source read a bogus length field out of
the APP1 marker bytes and jump past the end, finding nothing, while the
specification's range rule skips RST1 by 2 bytes and finds the payload. -/
theorem c4_jpeg_standalone_eval :
    Jpeg.readXmp c4buf = none ∧
    Jpeg.findXmpSegmentRange c4buf = none ∧
    Jpeg.readXmpRangeRule c4buf = some [104, 105] := by
  refine ⟨by decide, by decide, by decide⟩

/-- **C5, evaluation at the failing input.**  Round-trip failure caused by
the WebP replace-the-last-match slip: starting from a WebP with two XMP
chunks (payloads `XY` then `Z[`), writing `\]` replaces the last chunk,
and `readXmp` of the result returns the untouched first payload `XY`, not
the XML just written. -/
theorem c5_webp_roundtrip_eval :
    (Webp.writeXmp c5buf [92, 93]).map Webp.readXmp = .ok (some [88, 89]) ∧
    some [88, 89] ≠ some ([92, 93] : List Nat) := by
  refine ⟨by rfl, by decide⟩

/-- **C1, amended.**  PNG and WebP `writeXmp` fail with an explicit error
whenever the buffer lacks the format's magic signature; the JPEG module
performs no signature check on its write path and returns a buffer whenever
the APP1 size limit is met. -/
theorem c1_amended_signature_check
    (pdata wdata jdata xml : List Nat)
    (hp : matchesBytes pdata 0 Png.signature = false)
    (hw : Webp.isWebP wdata = false)
    (hj : Jpeg.xmpNs.length + xml.length + 2 ≤ 65535) :
    Png.writeXmp pdata xml = .error "Not a valid PNG file" ∧
    Webp.writeXmp wdata xml = .error "Not a valid WebP file" ∧
    (Jpeg.writeXmp jdata xml).isOk = true := by
  refine ⟨?_, ?_, ?_⟩
  · unfold Png.writeXmp
    simp [hp]
  · unfold Webp.writeXmp
    simp [hw]
  · unfold Jpeg.writeXmp
    rw [if_neg (by omega)]
    cases Jpeg.findXmpSegmentRange jdata with
    | none => rfl
    | some r => cases r with | mk s e => rfl

/-- **C1, witness.** -/
theorem c1_amended_witness :
    Png.writeXmp [0] [120] = .error "Not a valid PNG file" ∧
    Webp.writeXmp [0] [120] = .error "Not a valid WebP file" ∧
    (Jpeg.writeXmp ([] : List Nat) [120]).isOk = true :=
  c1_amended_signature_check [0] [0] [] [120] (by decide) (by decide) (by decide)

/-- **C3, amended.**  For every valid PNG buffer in which the write-path
scan finds no existing XMP chunk, `writeXmp` splices the new iTXt chunk in
at the first IDAT chunk's offset when one was seen, and otherwise at the
offset where scanning stopped — which, when the scan processed an IEND
chunk, lies immediately *after* IEND, so the chunk then follows IEND rather
than preceding it. -/
theorem c3_png_insert_position (data xml : List Nat)
    (hsig : matchesBytes data 0 Png.signature = true)
    (hex : (Png.scan data).existing = none) :
    Png.writeXmp data xml =
      .ok (data.take ((Png.scan data).firstIdat.getD (Png.scan data).stop) ++
        Png.buildPngChunk Png.itxtType (Png.buildITXtData xml) ++
        data.drop ((Png.scan data).firstIdat.getD (Png.scan data).stop)) := by
  unfold Png.writeXmp
  rw [if_neg (by simp [hsig])]
  simp only [hex]

/-- **C3, witness.** -/
theorem c3_png_insert_position_witness :
    Png.writeXmp
      (Png.signature ++ [0, 0, 0, 0] ++ Png.idatType ++ [1, 2, 3, 4] ++
        [0, 0, 0, 0] ++ Png.iendType ++ [174, 66, 96, 130]) [104] =
    .ok ((Png.signature ++ [0, 0, 0, 0] ++ Png.idatType ++ [1, 2, 3, 4] ++
        [0, 0, 0, 0] ++ Png.iendType ++ [174, 66, 96, 130]).take
        ((Png.scan (Png.signature ++ [0, 0, 0, 0] ++ Png.idatType ++ [1, 2, 3, 4] ++
          [0, 0, 0, 0] ++ Png.iendType ++ [174, 66, 96, 130])).firstIdat.getD
          (Png.scan (Png.signature ++ [0, 0, 0, 0] ++ Png.idatType ++ [1, 2, 3, 4] ++
            [0, 0, 0, 0] ++ Png.iendType ++ [174, 66, 96, 130])).stop) ++
      Png.buildPngChunk Png.itxtType (Png.buildITXtData [104]) ++
      (Png.signature ++ [0, 0, 0, 0] ++ Png.idatType ++ [1, 2, 3, 4] ++
        [0, 0, 0, 0] ++ Png.iendType ++ [174, 66, 96, 130]).drop
        ((Png.scan (Png.signature ++ [0, 0, 0, 0] ++ Png.idatType ++ [1, 2, 3, 4] ++
          [0, 0, 0, 0] ++ Png.iendType ++ [174, 66, 96, 130])).firstIdat.getD
          (Png.scan (Png.signature ++ [0, 0, 0, 0] ++ Png.idatType ++ [1, 2, 3, 4] ++
            [0, 0, 0, 0] ++ Png.iendType ++ [174, 66, 96, 130])).stop)) :=
  c3_png_insert_position _ [104] (by decide) (by decide)

/-- **C7.**  JPEG size ceiling: `writeXmp` fails exactly when the XMP
payload length plus the 29-byte namespace-URI-plus-NUL overhead exceeds
65533 (so that payload plus the 2-byte length field would exceed 65535);
otherwise it returns a buffer into which the complete new APP1 segment —
containing the namespace and the *entire* XML payload — has been spliced,
with the rest of the buffer kept as a prefix and a suffix. -/
theorem c7_jpeg_size_ceiling (data xml : List Nat) :
    ((Jpeg.writeXmp data xml).isOk = true ↔
      Jpeg.xmpNs.length + xml.length ≤ 65533) ∧
    (Jpeg.xmpNs.length + xml.length ≤ 65533 →
      ∃ k m, Jpeg.writeXmp data xml =
        .ok (data.take k ++ Jpeg.newSegment xml ++ data.drop m)) := by
  have hns : Jpeg.xmpNs.length = 29 := by rfl
  unfold Jpeg.writeXmp
  by_cases h : Jpeg.xmpNs.length + xml.length + 2 > 65535
  · rw [if_pos h]
    refine ⟨?_, fun hle => absurd hle (by omega)⟩
    rw [show (Except.error "XMP data is too large for a single JPEG APP1 segment" :
      Except String (List Nat)).isOk = false from rfl]
    exact ⟨fun hc => absurd hc (by simp), fun hle => absurd hle (by omega)⟩
  · rw [if_neg h]
    cases hf : Jpeg.findXmpSegmentRange data with
    | none =>
      exact ⟨⟨fun _ => by omega, fun _ => rfl⟩, fun _ => ⟨2, 2, rfl⟩⟩
    | some r =>
      cases r with
      | mk s e => exact ⟨⟨fun _ => by omega, fun _ => rfl⟩, fun _ => ⟨s, e, rfl⟩⟩

/-- **C7, witness.** -/
theorem c7_jpeg_size_ceiling_witness :
    (Jpeg.writeXmp [0xff, 0xd8] [104]).isOk = true ∧
    (∃ k m, Jpeg.writeXmp [0xff, 0xd8] [104] =
      .ok (([0xff, 0xd8] : List Nat).take k ++ Jpeg.newSegment [104] ++
        ([0xff, 0xd8] : List Nat).drop m)) :=
  ⟨(c7_jpeg_size_ceiling [0xff, 0xd8] [104]).1.mpr (by decide),
    (c7_jpeg_size_ceiling [0xff, 0xd8] [104]).2 (by decide)⟩


/-- One successful step of `setVP8XFlag`'s walk: if the first chunk slot at
offset 12 is in bounds and carries the `VP8X` FourCC, the walk finds it. -/
theorem findVP8X_step (l : List Nat) (h : 12 < l.length - 8)
    (hfour : (l.drop 12).take 4 = Webp.vp8xFourcc) :
    Webp.findVP8X l = some 12 := by
  unfold Webp.findVP8X
  simp only [Webp.findVP8XGo]
  rw [if_pos h]
  simp [hfour, show Webp.matchesFourCC Webp.vp8xFourcc Webp.vp8xFourcc = true from
    by decide]

/-- **C10.**  A WebP buffer with valid RIFF/WEBP magic, no XMP chunk and no
VP8X chunk, whose first chunk FourCC is neither `VP8 ` nor `VP8L` (or whose
buffer is too short for the documented dimension fields): `writeXmp` still
succeeds and synthesizes a VP8X chunk at offset 12 whose 24-bit
width-minus-one and height-minus-one fields are both 0. -/
theorem c10_webp_vp8x_default_dims (data xml : List Nat)
    (hw : Webp.isWebP data = true)
    (hex : (Webp.scan data).existing = none)
    (hvp : (Webp.scan data).vp8x = none)
    (hff : ((data.drop 12).take 4 ≠ Webp.vp8Fourcc ∧
        (data.drop 12).take 4 ≠ Webp.vp8lFourcc) ∨
      ((data.drop 12).take 4 = Webp.vp8Fourcc ∧ data.length ≤ 30) ∨
      ((data.drop 12).take 4 = Webp.vp8lFourcc ∧ data.length ≤ 25)) :
    ∃ out, Webp.writeXmp data xml = .ok out ∧
      Webp.findVP8X out = some 12 ∧
      readU24LE out 24 = 0 ∧ readU24LE out 27 = 0 := by
  have hlen : 12 ≤ data.length := by
    unfold Webp.isWebP at hw
    simp [Bool.and_eq_true] at hw
    exact hw.1.1
  have hvc : Webp.buildRiffChunk Webp.vp8xFourcc [4, 0, 0, 0, 0, 0, 0, 0, 0, 0] =
      [86, 80, 56, 88, 10, 0, 0, 0, 4, 0, 0, 0, 0, 0, 0, 0, 0, 0] := by decide
  have hmid : Webp.insertVP8XAndXmp data (Webp.buildRiffChunk Webp.xmpFourcc xml) =
      data.take 12 ++ ([86, 80, 56, 88, 10, 0, 0, 0, 4, 0, 0, 0, 0, 0, 0, 0, 0, 0] ++
        (data.drop 12 ++ Webp.buildRiffChunk Webp.xmpFourcc xml)) := by
    unfold Webp.insertVP8XAndXmp
    rcases hff with ⟨h1, h2⟩ | ⟨h1, h2⟩ | ⟨h1, h2⟩
    · simp [h1, h2, hvc, List.append_assoc]
    · simp [h1, show ¬ data.length > 30 by omega, hvc, List.append_assoc]
    · simp [h1, show Webp.vp8lFourcc ≠ Webp.vp8Fourcc from by decide,
        show ¬ data.length > 25 by omega, show ¬ data.length > 30 by omega,
        hvc, List.append_assoc]
  set VC : List Nat := [86, 80, 56, 88, 10, 0, 0, 0, 4, 0, 0, 0, 0, 0, 0, 0, 0, 0]
    with hVC
  set NC : List Nat := Webp.buildRiffChunk Webp.xmpFourcc xml with hNCdef
  set R : List Nat := data.take 12 ++ (VC ++ (data.drop 12 ++ NC)) with hRdef
  have hwx : Webp.writeXmp data xml = .ok (Webp.setVP8XFlag
      (writeU32LE R 4 ((R.length - 8) % 4294967296))) := by
    unfold Webp.writeXmp
    rw [if_neg (by simp [hw])]
    simp only [hex, hvp, hmid]
  set S : List Nat := writeU32LE R 4 ((R.length - 8) % 4294967296) with hSdef
  have htk : (data.take 12).length = 12 := by simp; omega
  have hgR : ∀ i, i < 18 → R.getD (12 + i) 0 = VC.getD i 0 := by
    intro i hi
    rw [hRdef]
    rw [getD_append_right' (by omega)]
    rw [htk, Nat.add_sub_cancel_left]
    rw [getD_append_left' (by rw [hVC]; simp; omega)]
  have hNClen : 8 ≤ NC.length := by
    rw [hNCdef]
    unfold Webp.buildRiffChunk
    simp [Webp.xmpFourcc, ascii, le32]
  have hRlen : 38 ≤ R.length := by
    rw [hRdef]
    simp [htk, hVC]
    omega
  have hSlen : S.length = R.length := length_writeU32LE _ _ _
  have hgS : ∀ p, 11 < p → S.getD p 0 = R.getD p 0 := by
    intro p hp
    rw [hSdef]
    exact getD_writeU32LE_outside _ _ _ _ (Or.inr (by omega))
  have hfS : Webp.findVP8X S = some 12 := by
    apply findVP8X_step
    · omega
    · rw [slice4_eq _ 12 (by omega)]
      rw [hgS 12 (by omega), hgS 13 (by omega), hgS 14 (by omega), hgS 15 (by omega)]
      rw [show (13 : Nat) = 12 + 1 from rfl, show (14 : Nat) = 12 + 2 from rfl,
        show (15 : Nat) = 12 + 3 from rfl, show (12 : Nat) = 12 + 0 from rfl]
      rw [hgR 0 (by omega), hgR 1 (by omega), hgR 2 (by omega), hgR 3 (by omega)]
      decide
  have hout : Webp.setVP8XFlag S = S.set 20 (S.getD 20 0 ||| 4) := by
    unfold Webp.setVP8XFlag
    rw [hfS]
  rw [hout] at hwx
  refine ⟨_, hwx, ?_, ?_, ?_⟩
  · apply findVP8X_step
    · simp only [List.length_set]
      omega
    · rw [slice4_eq _ 12 (by simp only [List.length_set]; omega)]
      rw [getD_set_ne (by omega), getD_set_ne (by omega), getD_set_ne (by omega),
        getD_set_ne (by omega)]
      rw [hgS 12 (by omega), hgS 13 (by omega), hgS 14 (by omega), hgS 15 (by omega)]
      rw [show (13 : Nat) = 12 + 1 from rfl, show (14 : Nat) = 12 + 2 from rfl,
        show (15 : Nat) = 12 + 3 from rfl, show (12 : Nat) = 12 + 0 from rfl]
      rw [hgR 0 (by omega), hgR 1 (by omega), hgR 2 (by omega), hgR 3 (by omega)]
      decide
  · unfold readU24LE
    rw [getD_set_ne (by omega), getD_set_ne (by omega), getD_set_ne (by omega)]
    rw [hgS 24 (by omega), hgS 25 (by omega), hgS 26 (by omega)]
    rw [show (24 : Nat) = 12 + 12 from rfl, show (25 : Nat) = 12 + 13 from rfl,
      show (26 : Nat) = 12 + 14 from rfl]
    rw [hgR 12 (by omega), hgR 13 (by omega), hgR 14 (by omega)]
    decide
  · unfold readU24LE
    rw [getD_set_ne (by omega), getD_set_ne (by omega), getD_set_ne (by omega)]
    rw [hgS 27 (by omega), hgS 28 (by omega), hgS 29 (by omega)]
    rw [show (27 : Nat) = 12 + 15 from rfl, show (28 : Nat) = 12 + 16 from rfl,
      show (29 : Nat) = 12 + 17 from rfl]
    rw [hgR 15 (by omega), hgR 16 (by omega), hgR 17 (by omega)]
    decide

/-- **C10, witness** (a 12-byte bare RIFF/WEBP header). -/
theorem c10_webp_vp8x_default_dims_witness :
    ∃ out, Webp.writeXmp (Webp.riffMagic ++ le32 4 ++ Webp.webpMagic) [67] =
      .ok out ∧ Webp.findVP8X out = some 12 ∧
      readU24LE out 24 = 0 ∧ readU24LE out 27 = 0 :=
  c10_webp_vp8x_default_dims _ [67] (by decide) (by decide) (by decide)
    (Or.inl ⟨by decide, by decide⟩)

/-- `setVP8XFlag`'s walk only returns offsets at or past its starting point,
with the whole 8-byte chunk header in bounds. -/
theorem findVP8XGo_bounds (data : List Nat) :
    ∀ fuel off o, Webp.findVP8XGo data fuel off = some o →
      off ≤ o ∧ o + 8 < data.length := by
  intro fuel
  induction fuel with
  | zero => intro off o h; simp [Webp.findVP8XGo] at h
  | succ n ih =>
    intro off o h
    simp only [Webp.findVP8XGo] at h
    split at h
    next hg =>
      split at h
      next hm =>
        obtain rfl := Option.some.inj h
        exact ⟨Nat.le_refl _, by omega⟩
      next hm =>
        have hb := ih _ _ h
        exact ⟨by omega, hb.2⟩
    next hg => exact absurd h (by simp)

/-- Setting the byte just past the found VP8X header (its flags byte) does
not change which chunk `setVP8XFlag`'s walk finds: the walk reads only bytes
strictly below `o + 8`. -/
theorem findVP8XGo_set_high (data : List Nat) (v : Nat) :
    ∀ fuel off o, Webp.findVP8XGo data fuel off = some o →
      Webp.findVP8XGo (data.set (o + 8) v) fuel off = some o := by
  intro fuel
  induction fuel with
  | zero => intro off o h; simp [Webp.findVP8XGo] at h
  | succ n ih =>
    intro off o h
    simp only [Webp.findVP8XGo] at h ⊢
    rw [List.length_set]
    split at h
    next hg =>
      rw [if_pos hg]
      split at h
      next hm =>
        obtain rfl := Option.some.inj h
        have hfour : ((data.set (off + 8) v).drop off).take 4 =
            (data.drop off).take 4 := by
          rw [slice4_eq _ _ (by simp only [List.length_set]; omega),
            slice4_eq _ _ (by omega)]
          rw [getD_set_ne (by omega), getD_set_ne (by omega),
            getD_set_ne (by omega), getD_set_ne (by omega)]
        rw [hfour, if_pos hm]
      next hm =>
        have hb := findVP8XGo_bounds data n _ o h
        have hfour : ((data.set (o + 8) v).drop off).take 4 =
            (data.drop off).take 4 := by
          rw [slice4_eq _ _ (by simp only [List.length_set]; omega),
            slice4_eq _ _ (by omega)]
          rw [getD_set_ne (by omega), getD_set_ne (by omega),
            getD_set_ne (by omega), getD_set_ne (by omega)]
        rw [hfour, if_neg hm]
        have hsize : readU32LE (data.set (o + 8) v) (off + 4) =
            readU32LE data (off + 4) := by
          unfold readU32LE
          rw [getD_set_ne (by omega), getD_set_ne (by omega),
            getD_set_ne (by omega), getD_set_ne (by omega)]
        rw [hsize]
        exact ih _ o h
    next hg => exact absurd h (by simp)

theorem findVP8X_bounds (data : List Nat) (o : Nat)
    (h : Webp.findVP8X data = some o) : 12 ≤ o ∧ o + 8 < data.length := by
  unfold Webp.findVP8X at h
  exact findVP8XGo_bounds data _ 12 o h

theorem findVP8X_set_flag_stable (data : List Nat) (o v : Nat)
    (h : Webp.findVP8X data = some o) :
    Webp.findVP8X (data.set (o + 8) v) = some o := by
  unfold Webp.findVP8X at h ⊢
  rw [List.length_set]
  exact findVP8XGo_set_high data v _ 12 o h

/-- Reading back the four bytes written by `writeU32LE`. -/
theorem readU32LE_writeU32LE (m : List Nat) (o v : Nat) (h : o + 4 ≤ m.length)
    (hv : v < 4294967296) : readU32LE (writeU32LE m o v) o = v := by
  have h0 : (writeU32LE m o v).getD o 0 = v % 256 := by
    unfold writeU32LE
    rw [getD_set_ne (by omega), getD_set_ne (by omega), getD_set_ne (by omega)]
    exact getD_set_self (by omega) _
  have h1 : (writeU32LE m o v).getD (o + 1) 0 = v / 256 % 256 := by
    unfold writeU32LE
    rw [getD_set_ne (by omega), getD_set_ne (by omega)]
    exact getD_set_self (by simp only [List.length_set]; omega) _
  have h2 : (writeU32LE m o v).getD (o + 2) 0 = v / 65536 % 256 := by
    unfold writeU32LE
    rw [getD_set_ne (by omega)]
    exact getD_set_self (by simp only [List.length_set]; omega) _
  have h3 : (writeU32LE m o v).getD (o + 3) 0 = v / 16777216 % 256 := by
    unfold writeU32LE
    exact getD_set_self (by simp only [List.length_set]; omega) _
  unfold readU32LE
  rw [h0, h1, h2, h3]
  omega

/-- Every XMP range the WebP write-path scan records is well-ordered: the
recorded end is the chunk's next offset, at least 8 bytes past its start. -/
theorem scanGo_existing_le (data : List Nat) :
    ∀ fuel off ex vp a b,
      (∀ a' b', ex = some (a', b') → a' ≤ b') →
      (Webp.scanGo data fuel off ex vp).existing = some (a, b) → a ≤ b := by
  intro fuel
  induction fuel with
  | zero =>
    intro off ex vp a b hinv h
    exact hinv a b h
  | succ n ih =>
    intro off ex vp a b hinv h
    simp only [Webp.scanGo] at h
    split at h
    next hg =>
      refine ih _ _ _ a b ?_ h
      intro a' b' h'
      split at h'
      next hm =>
        obtain ⟨rfl, rfl⟩ := Prod.mk.injEq .. ▸ Option.some.inj h'
        omega
      next hm => exact hinv a' b' h'
    next hg => exact hinv a b h

theorem scan_existing_le (data : List Nat) (a b : Nat)
    (h : (Webp.scan data).existing = some (a, b)) : a ≤ b := by
  unfold Webp.scan at h
  exact scanGo_existing_le data _ 12 none none a b (by intro a' b' h'; cases h') h

/-- **C9.**  WebP write post-conditions: for every buffer with valid
RIFF/WEBP magic (of total size fitting the 32-bit RIFF field), `writeXmp`
succeeds, the returned buffer's RIFF size field at bytes 4–7 (little-endian)
equals its length minus 8, and whenever `setVP8XFlag`'s chunk walk finds a
VP8X chunk in the returned buffer, that chunk's flags byte has bit 2
(XMP-present, mask 0x04) set. -/
theorem c9_webp_postconditions (data xml : List Nat)
    (hw : Webp.isWebP data = true)
    (hsz : data.length + xml.length + 30 < 4294967296) :
    ∃ out, Webp.writeXmp data xml = .ok out ∧
      readU32LE out 4 = out.length - 8 ∧
      ∀ o, Webp.findVP8X out = some o →
        Nat.testBit (out.getD (o + 8) 0) 2 = true := by
  have hlen : 12 ≤ data.length := by
    unfold Webp.isWebP at hw
    simp [Bool.and_eq_true] at hw
    exact hw.1.1
  have hNC : 8 ≤ (Webp.buildRiffChunk Webp.xmpFourcc xml).length ∧
      (Webp.buildRiffChunk Webp.xmpFourcc xml).length ≤ 9 + xml.length := by
    unfold Webp.buildRiffChunk
    constructor
    · simp [Webp.xmpFourcc, ascii, le32]
    · simp only [List.length_append]
      split <;> (simp [Webp.xmpFourcc, ascii, le32]; try omega)
  set M : List Nat := (match (Webp.scan data).existing with
    | some (a, b) =>
        data.take a ++ Webp.buildRiffChunk Webp.xmpFourcc xml ++ data.drop b
    | none => match (Webp.scan data).vp8x with
      | none =>
          Webp.insertVP8XAndXmp data (Webp.buildRiffChunk Webp.xmpFourcc xml)
      | some _ => data ++ Webp.buildRiffChunk Webp.xmpFourcc xml) with hM
  have hwx : Webp.writeXmp data xml = .ok (Webp.setVP8XFlag
      (writeU32LE M 4 ((M.length - 8) % 4294967296))) := by
    unfold Webp.writeXmp
    rw [if_neg (by simp [hw])]
  have hMb : 8 ≤ M.length ∧ M.length ≤ data.length + xml.length + 27 := by
    rw [hM]
    cases hce : (Webp.scan data).existing with
    | some r =>
      cases r with
      | mk a b =>
        have hab : a ≤ b := scan_existing_le data a b hce
        simp only [List.length_append, List.length_take, List.length_drop]
        have := Nat.min_le_right a data.length
        have := Nat.min_le_left a data.length
        omega
    | none =>
      cases hcv : (Webp.scan data).vp8x with
      | none =>
        unfold Webp.insertVP8XAndXmp
        simp only [List.length_append, List.length_take, List.length_drop]
        have hvclen : ∀ w h : Nat, (Webp.buildRiffChunk Webp.vp8xFourcc
            [4, 0, 0, 0, w % 256, w / 256 % 256, w / 65536 % 256,
              h % 256, h / 256 % 256, h / 65536 % 256]).length = 18 := by
          intro w h
          unfold Webp.buildRiffChunk
          simp [Webp.vp8xFourcc, ascii, le32]
        rw [hvclen]
        have := Nat.min_le_right 12 data.length
        omega
      | some _ =>
        simp only [List.length_append]
        omega
  set S : List Nat := writeU32LE M 4 ((M.length - 8) % 4294967296) with hS
  have hSlen : S.length = M.length := by
    rw [hS]; exact length_writeU32LE _ _ _
  have hread : readU32LE S 4 = M.length - 8 := by
    rw [hS, Nat.mod_eq_of_lt (by omega)]
    exact readU32LE_writeU32LE M 4 _ (by omega) (by omega)
  cases hf : Webp.findVP8X S with
  | none =>
    refine ⟨S, ?_, ?_, ?_⟩
    · rw [hwx]
      unfold Webp.setVP8XFlag
      rw [hf]
    · rw [hread, hSlen]
    · intro o ho
      rw [hf] at ho
      cases ho
  | some o =>
    have hb := findVP8X_bounds S o hf
    refine ⟨S.set (o + 8) (S.getD (o + 8) 0 ||| 4), ?_, ?_, ?_⟩
    · rw [hwx]
      unfold Webp.setVP8XFlag
      rw [hf]
    · have hr : readU32LE (S.set (o + 8) (S.getD (o + 8) 0 ||| 4)) 4 =
          readU32LE S 4 := by
        unfold readU32LE
        rw [getD_set_ne (by omega), getD_set_ne (by omega),
          getD_set_ne (by omega), getD_set_ne (by omega)]
      rw [hr, hread, List.length_set, hSlen]
    · intro o' ho'
      have hstable := findVP8X_set_flag_stable S o (S.getD (o + 8) 0 ||| 4) hf
      rw [hstable] at ho'
      obtain rfl := Option.some.inj ho'
      rw [getD_set_self (by omega)]
      simp [Nat.testBit_or, show Nat.testBit 4 2 = true from by decide]

/-- **C9, witness** (a WebP holding a zeroed VP8X chunk). -/
theorem c9_webp_postconditions_witness :
    ∃ out, Webp.writeXmp (Webp.riffMagic ++ le32 16 ++ Webp.webpMagic ++
      Webp.buildRiffChunk Webp.vp8xFourcc [0, 0, 0, 0, 0, 0, 0, 0, 0, 0]) [67] =
      .ok out ∧
      readU32LE out 4 = out.length - 8 ∧
      ∀ o, Webp.findVP8X out = some o →
        Nat.testBit (out.getD (o + 8) 0) 2 = true :=
  c9_webp_postconditions _ [67] (by decide) (by decide)

/-! ## CRC-32: the table-driven code computes the standard bitwise CRC -/

theorem xor_left_comm' (a b c : Nat) : a ^^^ (b ^^^ c) = b ^^^ (a ^^^ c) := by
  rw [← Nat.xor_assoc, Nat.xor_comm a b, Nat.xor_assoc]

theorem xor_xor_cancel (a b c : Nat) : (a ^^^ b) ^^^ (a ^^^ c) = b ^^^ c := by
  rw [Nat.xor_assoc, xor_left_comm' b a c, ← Nat.xor_assoc, Nat.xor_self,
    Nat.zero_xor]

/-- The reflected CRC bit step is GF(2)-linear. -/
theorem crcStep_linear (x y : Nat) :
    Png.crcStep (x ^^^ y) = Png.crcStep x ^^^ Png.crcStep y := by
  have hxy : (x ^^^ y) % 2 = 1 ↔ ¬ ((x % 2 = 1) ↔ (y % 2 = 1)) :=
    Nat.xor_mod_two_eq_one
  unfold Png.crcStep
  rcases Nat.mod_two_eq_zero_or_one x with hx | hx <;>
    rcases Nat.mod_two_eq_zero_or_one y with hy | hy
  · rw [if_neg (by rw [hxy]; simp [hx, hy]), if_neg (by omega), if_neg (by omega),
      Nat.xor_div_two]
  · rw [if_pos (by rw [hxy]; simp [hx, hy]), if_neg (by omega), if_pos hy,
      Nat.xor_div_two, xor_left_comm']
  · rw [if_pos (by rw [hxy]; simp [hx, hy]), if_pos hx, if_neg (by omega),
      Nat.xor_div_two, Nat.xor_assoc]
  · rw [if_neg (by rw [hxy]; simp [hx, hy]), if_pos hx, if_pos hy,
      Nat.xor_div_two, xor_xor_cancel]

theorem crcStep8_eq (x : Nat) : Png.crcStep8 x =
    Png.crcStep (Png.crcStep (Png.crcStep (Png.crcStep (Png.crcStep
      (Png.crcStep (Png.crcStep (Png.crcStep x))))))) := rfl

theorem crcStep8_linear (x y : Nat) :
    Png.crcStep8 (x ^^^ y) = Png.crcStep8 x ^^^ Png.crcStep8 y := by
  rw [crcStep8_eq, crcStep8_eq, crcStep8_eq]
  simp only [← crcStep_linear]

theorem crcStep_double (m : Nat) : Png.crcStep (2 * m) = m := by
  unfold Png.crcStep
  rw [if_neg (by omega)]
  omega

theorem crcStep8_mul256 (m : Nat) : Png.crcStep8 (256 * m) = m := by
  rw [crcStep8_eq]
  rw [show 256 * m = 2 * (128 * m) by ring, crcStep_double]
  rw [show 128 * m = 2 * (64 * m) by ring, crcStep_double]
  rw [show 64 * m = 2 * (32 * m) by ring, crcStep_double]
  rw [show 32 * m = 2 * (16 * m) by ring, crcStep_double]
  rw [show 16 * m = 2 * (8 * m) by ring, crcStep_double]
  rw [show 8 * m = 2 * (4 * m) by ring, crcStep_double]
  rw [show 4 * m = 2 * (2 * m) by ring, crcStep_double]
  rw [crcStep_double]

/-- Each entry of the source's `makeCrcTable` is the 8-fold bit step. -/
theorem crcTable_getD (n : Nat) (h : n < 256) :
    Png.crcTable.getD n 0 = Png.crcStep8 n := by
  unfold Png.crcTable
  rw [List.getD_eq_getElem]
  rotate_left
  · simpa using h
  · simp

/-- XOR of a multiple of 256 with a byte is their sum (disjoint bits). -/
theorem mul256_xor_add (q r : Nat) (h : r < 256) : 256 * q ^^^ r = 256 * q + r := by
  have h' : r < 2 ^ 8 := by norm_num; omega
  have hor := Nat.mul_add_lt_is_or h' q
  have hxo : 2 ^ 8 * q ^^^ r = 2 ^ 8 * q ||| r := by
    apply Nat.eq_of_testBit_eq
    intro i
    rw [Nat.testBit_xor, Nat.testBit_or, Nat.testBit_mul_pow_two]
    rcases Nat.lt_or_ge i 8 with hi | hi
    · simp [Nat.not_le_of_lt hi]
    · have hr : r.testBit i = false :=
        Nat.testBit_lt_two_pow
          (lt_of_lt_of_le h' (Nat.pow_le_pow_right (by omega) hi))
      simp [hi, hr]
  calc 256 * q ^^^ r = 2 ^ 8 * q ^^^ r := by norm_num
    _ = 2 ^ 8 * q ||| r := hxo
    _ = 2 ^ 8 * q + r := hor.symm
    _ = 256 * q + r := by norm_num

/-- XOR with a byte does not change the upper part. -/
theorem xor_byte_div256 (c b : Nat) (hb : b < 256) :
    (c ^^^ b) / 256 = c / 256 := by
  have h2 : (c ^^^ b) >>> 8 = (c >>> 8) ^^^ (b >>> 8) := by
    apply Nat.eq_of_testBit_eq
    intro i
    simp [Nat.testBit_xor]
  have hb8 : b >>> 8 = 0 := by
    rw [Nat.shiftRight_eq_div_pow]
    exact Nat.div_eq_of_lt (by norm_num; omega)
  rw [hb8, Nat.xor_zero] at h2
  simpa [Nat.shiftRight_eq_div_pow] using h2

/-- The table-driven byte update of `png.ts` coincides with the standard
bitwise CRC byte update. -/
theorem crcUpdate_eq_bitwise (c b : Nat) (hb : b < 256) :
    Png.crcUpdate c b = Png.crcUpdateBitwise c b := by
  have hmod : (c ^^^ b) % 256 < 256 := Nat.mod_lt _ (by omega)
  have hdecomp : Png.crcStep8 (c ^^^ b) =
      ((c ^^^ b) / 256) ^^^ Png.crcStep8 ((c ^^^ b) % 256) := by
    conv_lhs => rw [(Nat.div_add_mod (c ^^^ b) 256).symm]
    rw [← mul256_xor_add _ _ hmod, crcStep8_linear, crcStep8_mul256]
  unfold Png.crcUpdate Png.crcUpdateBitwise
  rw [show (c ^^^ b) &&& 255 = (c ^^^ b) % 256 by
    have h := Nat.and_pow_two_sub_one_eq_mod (c ^^^ b) 8
    norm_num at h
    exact h]
  rw [crcTable_getD _ hmod, hdecomp, ← xor_byte_div256 c b hb, Nat.xor_comm]

theorem foldl_crcUpdate_eq (l : List Nat) :
    ∀ c, (∀ b ∈ l, b < 256) →
      l.foldl Png.crcUpdate c = l.foldl Png.crcUpdateBitwise c := by
  induction l with
  | nil => intro c _; rfl
  | cons b t ih =>
    intro c hbt
    simp only [List.foldl_cons]
    rw [crcUpdate_eq_bitwise c b (hbt b (by simp))]
    exact ih _ (fun x hx => hbt x (by simp [hx]))

/-- `crc32` of `png.ts` equals the standard bitwise CRC-32 on byte lists. -/
theorem crc32_eq_bitwise (data : List Nat) (hd : ∀ b ∈ data, b < 256) :
    Png.crc32 data = Png.crc32Bitwise data := by
  unfold Png.crc32 Png.crc32Bitwise
  rw [foldl_crcUpdate_eq data 0xffffffff hd]

theorem xor_lt_32 {a b : Nat} (ha : a < 4294967296) (hb : b < 4294967296) :
    a ^^^ b < 4294967296 := by
  have h := Nat.xor_lt_two_pow (show a < 2 ^ 32 by norm_num; omega)
    (show b < 2 ^ 32 by norm_num; omega)
  norm_num at h
  omega

theorem crcStep_lt {c : Nat} (h : c < 4294967296) :
    Png.crcStep c < 4294967296 := by
  unfold Png.crcStep
  split
  · exact xor_lt_32 (by norm_num) (by omega)
  · omega

theorem crcStep8_lt {c : Nat} (h : c < 4294967296) :
    Png.crcStep8 c < 4294967296 := by
  rw [crcStep8_eq]
  exact crcStep_lt (crcStep_lt (crcStep_lt (crcStep_lt (crcStep_lt
    (crcStep_lt (crcStep_lt (crcStep_lt h)))))))

/-- The CRC bit step is injective on the 32-bit domain: its only kernel
element below `2^32` is zero, because the odd preimage of zero would be
`2·0xEDB88320 + 1 ≥ 2^32`. -/
theorem crcStep_injOn {x y : Nat} (hx : x < 4294967296) (hy : y < 4294967296)
    (h : Png.crcStep x = Png.crcStep y) : x = y := by
  have hz : Png.crcStep (x ^^^ y) = 0 := by
    rw [crcStep_linear, h, Nat.xor_self]
  have hxy : x ^^^ y < 4294967296 := xor_lt_32 hx hy
  unfold Png.crcStep at hz
  split at hz
  · next hodd =>
    have hP : (x ^^^ y) / 2 = 0xedb88320 := by
      have h2 := congrArg (fun t => 0xedb88320 ^^^ t) hz
      simpa [Nat.xor_cancel_left] using h2
    omega
  · next heven =>
    have h0 : x ^^^ y = 0 := by omega
    exact Nat.xor_eq_zero.mp h0

theorem crcStep8_injOn {x y : Nat} (hx : x < 4294967296) (hy : y < 4294967296)
    (h : Png.crcStep8 x = Png.crcStep8 y) : x = y := by
  rw [crcStep8_eq, crcStep8_eq] at h
  exact crcStep_injOn hx hy (crcStep_injOn (crcStep_lt hx) (crcStep_lt hy)
    (crcStep_injOn (crcStep_lt (crcStep_lt hx)) (crcStep_lt (crcStep_lt hy))
    (crcStep_injOn (crcStep_lt (crcStep_lt (crcStep_lt hx)))
      (crcStep_lt (crcStep_lt (crcStep_lt hy)))
    (crcStep_injOn (crcStep_lt (crcStep_lt (crcStep_lt (crcStep_lt hx))))
      (crcStep_lt (crcStep_lt (crcStep_lt (crcStep_lt hy))))
    (crcStep_injOn
      (crcStep_lt (crcStep_lt (crcStep_lt (crcStep_lt (crcStep_lt hx)))))
      (crcStep_lt (crcStep_lt (crcStep_lt (crcStep_lt (crcStep_lt hy)))))
    (crcStep_injOn
      (crcStep_lt (crcStep_lt (crcStep_lt (crcStep_lt (crcStep_lt
        (crcStep_lt hx))))))
      (crcStep_lt (crcStep_lt (crcStep_lt (crcStep_lt (crcStep_lt
        (crcStep_lt hy))))))
    (crcStep_injOn
      (crcStep_lt (crcStep_lt (crcStep_lt (crcStep_lt (crcStep_lt
        (crcStep_lt (crcStep_lt hx)))))))
      (crcStep_lt (crcStep_lt (crcStep_lt (crcStep_lt (crcStep_lt
        (crcStep_lt (crcStep_lt hy)))))))
      h)))))))

/-- Folding the bitwise byte update keeps the register inside 32 bits. -/
theorem foldl_bitwise_lt (l : List Nat) :
    ∀ s, s < 4294967296 → (∀ b ∈ l, b < 256) →
      l.foldl Png.crcUpdateBitwise s < 4294967296 := by
  induction l with
  | nil => intro s hs _; simpa using hs
  | cons b t ih =>
    intro s hs hb
    simp only [List.foldl_cons]
    refine ih _ ?_ (fun x hx => hb x (by simp [hx]))
    exact crcStep8_lt (xor_lt_32 hs (lt_trans (hb b (by simp)) (by norm_num)))

/-- Folding the bitwise byte update over the same suffix preserves
distinctness of 32-bit registers. -/
theorem foldl_bitwise_ne (post : List Nat) :
    ∀ s s', (∀ b ∈ post, b < 256) → s < 4294967296 → s' < 4294967296 →
      s ≠ s' →
      post.foldl Png.crcUpdateBitwise s ≠ post.foldl Png.crcUpdateBitwise s' := by
  induction post with
  | nil => intro s s' _ _ _ hne; simpa using hne
  | cons b t ih =>
    intro s s' hb hs hs' hne
    simp only [List.foldl_cons]
    have hblt : b < 4294967296 := lt_trans (hb b (by simp)) (by norm_num)
    refine ih _ _ (fun x hx => hb x (by simp [hx]))
      (crcStep8_lt (xor_lt_32 hs hblt)) (crcStep8_lt (xor_lt_32 hs' hblt)) ?_
    intro heq
    exact hne (Nat.xor_left_injective
      (crcStep8_injOn (xor_lt_32 hs hblt) (xor_lt_32 hs' hblt) heq))

/-- **C8.**  PNG CRC correctness: the iTXt chunk emitted by `buildPngChunk`
ends in the 4 big-endian bytes of the CRC-32 of its type + data bytes,
computed with the standard reflected polynomial `0xEDB88320`, initial value
`0xFFFFFFFF` and final XOR `0xFFFFFFFF` (the bitwise definition
`crc32Bitwise`); the CRC is recomputed over the exact new type+data bytes by
construction, and changing any single data byte changes the CRC. -/
theorem c8_png_crc (xml : List Nat) (hx : ∀ b ∈ xml, b < 256) :
    Png.buildPngChunk Png.itxtType (Png.buildITXtData xml) =
      be32 (Png.buildITXtData xml).length ++ Png.itxtType ++
        Png.buildITXtData xml ++
        be32 (Png.crc32Bitwise (Png.itxtType ++ Png.buildITXtData xml)) ∧
    (∀ pre b b' post, b < 256 → b' < 256 → b ≠ b' →
      (∀ x ∈ pre, x < 256) → (∀ x ∈ post, x < 256) →
      Png.crc32 (pre ++ b :: post) ≠ Png.crc32 (pre ++ b' :: post)) := by
  constructor
  · unfold Png.buildPngChunk
    rw [crc32_eq_bitwise]
    intro b hbmem
    rcases List.mem_append.mp hbmem with h | h
    · exact (by decide : ∀ x ∈ Png.itxtType, x < 256) b h
    · unfold Png.buildITXtData at h
      rcases List.mem_append.mp h with h2 | h2
      · rcases List.mem_append.mp h2 with h3 | h3
        · exact (by decide : ∀ x ∈ Png.xmpKeyword, x < 256) b h3
        · simp at h3
          omega
      · exact hx b h2
  · intro pre b b' post hb hb' hne hpre hpost
    have hall : ∀ x ∈ pre ++ b :: post, x < 256 := by
      intro x hxm
      rcases List.mem_append.mp hxm with h | h
      · exact hpre x h
      · rcases List.mem_cons.mp h with rfl | h
        · exact hb
        · exact hpost x h
    have hall' : ∀ x ∈ pre ++ b' :: post, x < 256 := by
      intro x hxm
      rcases List.mem_append.mp hxm with h | h
      · exact hpre x h
      · rcases List.mem_cons.mp h with rfl | h
        · exact hb'
        · exact hpost x h
    rw [crc32_eq_bitwise _ hall, crc32_eq_bitwise _ hall']
    unfold Png.crc32Bitwise
    intro heq
    have heq2 : (pre ++ b :: post).foldl Png.crcUpdateBitwise 0xffffffff =
        (pre ++ b' :: post).foldl Png.crcUpdateBitwise 0xffffffff :=
      Nat.xor_left_injective heq
    rw [List.foldl_append, List.foldl_append] at heq2
    simp only [List.foldl_cons] at heq2
    have hclt : pre.foldl Png.crcUpdateBitwise 0xffffffff < 4294967296 :=
      foldl_bitwise_lt pre 0xffffffff (by norm_num) hpre
    have hblt : b < 4294967296 := by omega
    have hblt' : b' < 4294967296 := by omega
    refine foldl_bitwise_ne post _ _ hpost (crcStep8_lt (xor_lt_32 hclt hblt))
      (crcStep8_lt (xor_lt_32 hclt hblt')) ?_ heq2
    intro hstep
    exact hne (Nat.xor_right_injective
      (crcStep8_injOn (xor_lt_32 hclt hblt) (xor_lt_32 hclt hblt') hstep))

/-- **C8, witness.** -/
theorem c8_png_crc_witness :
    Png.buildPngChunk Png.itxtType (Png.buildITXtData (ascii "hello")) =
      be32 (Png.buildITXtData (ascii "hello")).length ++ Png.itxtType ++
        Png.buildITXtData (ascii "hello") ++
        be32 (Png.crc32Bitwise (Png.itxtType ++ Png.buildITXtData
          (ascii "hello"))) ∧
    Png.crc32 ([1, 2] ++ 3 :: [4]) ≠ Png.crc32 ([1, 2] ++ 5 :: [4]) :=
  ⟨(c8_png_crc (ascii "hello") (by decide)).1,
    (c8_png_crc (ascii "hello") (by decide)).2 [1, 2] 3 5 [4] (by decide)
      (by decide) (by decide) (by decide) (by decide)⟩
